import Mathlib

/-!
Verification development for the `khutbahmaker` package
(`src/khutbahmaker/__init__.py`).

The module chains three steps: a prompt builder, a text generator whose
raw response is cleaned by `__clean_markdown`, and a document renderer
`__khutbah_to_pdf`, all orchestrated by `generate_khutbah`.

Modelling conventions:
* strings are modelled as Lean `String` / `List Char`;
* the regex character class `\w` of `re.sub(r'[^\w\-]', '_', topic)` is
  modelled by its ASCII fragment ("letter or digit or underscore"), and
  `str.lower()` by ASCII lowercasing, which agrees with Python on all
  ASCII inputs used in the theorems below;
* `str.strip()` is modelled as removal of the ASCII whitespace
  characters at both ends;
* the external collaborators (the generative-model client and the
  markdown-to-PDF library) are modelled as parameters: the generator and
  renderer stage outcomes are inputs of the orchestration model, and the
  PDF object is modelled by the record of everything the source code
  hands to it (sections, metadata, table-of-contents depth).
-/

namespace KhutbahMaker

/-- The backtick character (written via its code point so that the
character itself appears only inside string literals). -/
def btick : Char := Char.ofNat 96

/-- ASCII letter, i.e. the regex class `[a-zA-Z]` used in
`re.sub(r'```[a-zA-Z]*\n', '', text)`. -/
def isAsciiLetter (c : Char) : Bool := c.isAlpha

/-- ASCII fragment of the regex class `\w`: letter, digit or underscore. -/
def isWordChar (c : Char) : Bool := c.isAlpha || c.isDigit || c = '_'

/-- ASCII whitespace as removed by Python `str.strip()`:
space, tab, newline, carriage return, vertical tab, form feed. -/
def isPySpace (c : Char) : Bool :=
  c = ' ' || c = '\t' || c = '\n' || c = '\r' || c = Char.ofNat 11 || c = Char.ofNat 12

/-- Matcher for the part `[a-zA-Z]*\n` of the first fence regex: skip a
(possibly empty) run of ASCII letters and then require a newline;
returns the remainder after the newline.  Because a letter is never a
newline, this deterministic scan agrees with the regex engine. -/
def matchTagNl : List Char → Option (List Char)
  | [] => none
  | c :: rest =>
    if c = '\n' then some rest
    else if isAsciiLetter c then matchTagNl rest
    else none

/-- Matcher for the whole first fence regex ` ```[a-zA-Z]*\n ` at the
head of the list; returns the remainder after the match. -/
def fence1Match : List Char → Option (List Char)
  | a :: b :: c :: rest =>
    if a = btick && b = btick && c = btick then matchTagNl rest else none
  | _ => none

theorem matchTagNl_length :
    ∀ (l r : List Char), matchTagNl l = some r → r.length < l.length := by
  intro l
  induction l with
  | nil => intro r h; simp [matchTagNl] at h
  | cons c rest ih =>
    intro r h
    simp only [matchTagNl] at h
    by_cases hc : c = '\n'
    · simp [hc] at h
      subst h
      simp
    · by_cases hl : isAsciiLetter c
      · simp [hc, hl] at h
        exact Nat.lt_trans (ih r h) (by simp)
      · simp [hc, hl] at h

theorem fence1Match_length :
    ∀ (l r : List Char), fence1Match l = some r → r.length + 4 ≤ l.length := by
  intro l r h
  match l with
  | [] => simp [fence1Match] at h
  | [a] => simp [fence1Match] at h
  | [a, b] => simp [fence1Match] at h
  | a :: b :: c :: rest =>
    simp only [fence1Match] at h
    by_cases habc : a = btick && b = btick && c = btick
    · simp [habc] at h
      have := matchTagNl_length rest r h
      simp only [List.length_cons]
      omega
    · simp [habc] at h

/-- Fuelled scanner for `re.sub(r'```[a-zA-Z]*\n', '', text)`:
left-to-right scan deleting each non-overlapping leftmost match, as the
Python regex engine does.  The fuel argument only makes the recursion
structural; `sub1` below supplies enough fuel for it to be irrelevant. -/
def sub1F : Nat → List Char → List Char
  | _, [] => []
  | 0, l => l
  | f + 1, a :: cs =>
    match fence1Match (a :: cs) with
    | some r => sub1F f r
    | none => a :: sub1F f cs

/-- `re.sub(r'```[a-zA-Z]*\n', '', text)` on `List Char`. -/
def sub1 (l : List Char) : List Char := sub1F l.length l

theorem sub1F_congr :
    ∀ (f g : Nat) (l : List Char), l.length ≤ f → l.length ≤ g →
      sub1F f l = sub1F g l := by
  intro f
  induction f with
  | zero =>
    intro g l hf _
    have : l = [] := List.eq_nil_of_length_eq_zero (Nat.le_zero.mp hf)
    subst this
    cases g <;> rfl
  | succ f ih =>
    intro g l hf hg
    match l with
    | [] => cases g <;> rfl
    | a :: cs =>
      match g with
      | 0 => exact absurd hg (by simp)
      | g + 1 =>
        simp only [sub1F]
        cases hm : fence1Match (a :: cs) with
        | some r =>
          have hr := fence1Match_length _ _ hm
          simp only [List.length_cons] at hf hg hr
          exact ih g r (by omega) (by omega)
        | none =>
          simp only [List.length_cons] at hf hg
          exact congrArg (a :: ·) (ih g cs (by omega) (by omega))

theorem sub1_nil : sub1 [] = [] := rfl

theorem sub1_cons_none (a : Char) (cs : List Char)
    (h : fence1Match (a :: cs) = none) : sub1 (a :: cs) = a :: sub1 cs := by
  simp only [sub1, List.length_cons, sub1F, h]

theorem sub1_match (l r : List Char) (h : fence1Match l = some r) :
    sub1 l = sub1 r := by
  match l with
  | [] => simp [fence1Match] at h
  | a :: cs =>
    have hr := fence1Match_length _ _ h
    simp only [List.length_cons] at hr
    simp only [sub1, List.length_cons, sub1F, h]
    exact sub1F_congr _ _ r (by omega) (by omega)

/-- `re.sub(r'```\n?', '', text)` on `List Char`: left-to-right scan
deleting each leftmost occurrence of three backticks and, greedily, one
following newline.  (In the three-element case the `else` branch is the
already-computed value of `a :: sub2 [b, c]`.) -/
def sub2 : List Char → List Char
  | [] => []
  | [a] => [a]
  | [a, b] => [a, b]
  | [a, b, c] => if a = btick && b = btick && c = btick then [] else [a, b, c]
  | a :: b :: c :: d :: rest =>
    if a = btick && b = btick && c = btick then
      if d = '\n' then sub2 rest else sub2 (d :: rest)
    else a :: sub2 (b :: c :: d :: rest)

/-- Python `str.strip()` on `List Char` (ASCII whitespace). -/
def stripChars (l : List Char) : List Char :=
  ((l.dropWhile isPySpace).reverse.dropWhile isPySpace).reverse

/-- `KhutbahMaker.__clean_markdown` on `List Char`: the two `re.sub`
passes followed by `str.strip()`. -/
def cleanList (l : List Char) : List Char := stripChars (sub2 (sub1 l))

/-- `KhutbahMaker.__clean_markdown`. -/
def clean_markdown (s : String) : String := String.mk (cleanList s.data)

/-- Python `str.strip()` on `String`. -/
def pyStrip (s : String) : String := String.mk (stripChars s.data)

/-- Whether a character list contains three consecutive backticks. -/
def hasTriple : List Char → Bool
  | a :: b :: c :: rest =>
    (a = btick && b = btick && c = btick) || hasTriple (b :: c :: rest)
  | _ => false

/-- Whether a character list is free of backticks. -/
def noBtick (l : List Char) : Bool := l.all (fun c => !(c = btick))

/-! ## The document renderer `KhutbahMaker.__khutbah_to_pdf` -/

/-- `re.sub(r'[^\w\-]', '_', topic)`: every character outside `\w` and
the hyphen is replaced by an underscore. -/
def sanitize (topic : String) : String :=
  String.mk (topic.data.map (fun c => if isWordChar c || c = '-' then c else '_'))

/-- `language.lower().replace(' ', '_')`. -/
def normLang (language : String) : String :=
  String.mk (language.data.map (fun c => if c = ' ' then '_' else c.toLower))

/-- `markdown_text.startswith('# ')`. -/
def startsH1 : List Char → Bool
  | '#' :: ' ' :: _ => true
  | _ => false

/-- Everything the source hands to the `MarkdownPdf` object: the
table-of-contents depth, the section contents added via `add_section`,
and the four metadata fields.  (The fixed CSS string passed along with
the section is not modelled; no claim mentions its content.) -/
structure PdfDoc where
  tocLevel : Nat
  sections : List String
  title : String
  subject : String
  author : String
  creator : String
deriving DecidableEq

/-- `KhutbahMaker.__khutbah_to_pdf(markdown_text, topic, language, task_id)`.
`tempDir` stands for `tempfile.gettempdir()`; `os.path.join` is modelled
as concatenation with a separating slash.

Source order matters and is preserved here:
1. the path is derived from the sanitized topic and normalised language;
2. `pdf.add_section(Section(markdown_text, toc=True), ...)` registers the
   *original* `markdown_text` as the section content;
3. only afterwards does the code test `markdown_text.startswith('# ')`;
   when the test fails it sets `title = f"Khutbah on {topic}"` and
   rebinds the local `markdown_text` to `f"# {title}\n\n{markdown_text}"`
   — a dead store, since nothing reads the local afterwards;
4. `pdf.meta["title"] = title` then reads `title` unconditionally: when
   the text did start with `'# '`, `title` was never assigned, so Python
   raises `UnboundLocalError`, the `except` block logs it and the
   function returns `None`.  That failure path is the `none` branch. -/
def khutbah_to_pdf (markdown_text topic language tempDir : String) :
    Option (String × PdfDoc) :=
  let clean_topic := sanitize topic
  let clean_filename := clean_topic ++ "_khutbah_" ++ normLang language
  let pdf_path := tempDir ++ "/" ++ clean_filename ++ ".pdf"
  let sections := [markdown_text]
  if startsH1 markdown_text.data then
    none
  else
    let title := "Khutbah on " ++ topic
    some (pdf_path,
      ⟨3, sections, title, "Islamic Khutbah on " ++ topic,
       "Ikmal Said", "KhutbahMaker"⟩)

/-- Modelled from the claim's words (C7), for comparison with
`khutbah_to_pdf`: the artifact path
`{platform temp dir}/{sanitized topic}_khutbah_{language}.pdf`, with the
language inserted verbatim. -/
def claimedPdfPath (tempDir topic language : String) : String :=
  tempDir ++ "/" ++ sanitize topic ++ "_khutbah_" ++ language ++ ".pdf"

/-! ## The orchestration `KhutbahMaker.generate_khutbah` -/

/-- Observable outcome of one `generate_khutbah` call: the returned pair
plus, for the collaborator-interaction claims, whether a task id was
allocated and whether each stage was invoked. -/
structure GenOutcome where
  pdfFile : Option String
  text : Option String
  taskAllocated : Bool
  generatorCalled : Bool
  rendererCalled : Bool
deriving DecidableEq

/-- `KhutbahMaker.generate_khutbah(topic, length, tone, language)`.

The two collaborator stages are parameters:
* `gen` is the outcome of `self.__generate_khutbah(...)` — `Except.error`
  models the stage raising an exception, `Except.ok` its return value
  (`none` being Python `None`);
* `ren` maps the cleaned text to the outcome of
  `self.__khutbah_to_pdf(...)` in the same way.

Source mapping:
* `if not topic or topic == ""` — for a Python `str` both tests mean
  `topic == ""` — returns `(None, None)` before any task id exists;
* the task id is allocated and both stage calls sit inside
  `try: ... except Exception: return None, None`;
* `if not markdown_text` is Python falsiness: `None` or `""` both
  short-circuit to `(None, None)` without calling the renderer;
* `if not pdf_file` likewise treats `None` or `""` as failure. -/
def generate_khutbah (topic : String)
    (gen : Except String (Option String))
    (ren : String → Except String (Option String)) : GenOutcome :=
  if topic = "" then
    ⟨none, none, false, false, false⟩
  else
    match gen with
    | Except.error _ => ⟨none, none, true, true, false⟩
    | Except.ok none => ⟨none, none, true, true, false⟩
    | Except.ok (some md) =>
      if md = "" then ⟨none, none, true, true, false⟩
      else
        match ren md with
        | Except.error _ => ⟨none, none, true, true, true⟩
        | Except.ok none => ⟨none, none, true, true, true⟩
        | Except.ok (some p) =>
          if p = "" then ⟨none, none, true, true, true⟩
          else ⟨some p, some md, true, true, true⟩

/-! ## The prompt builder inside `KhutbahMaker.__generate_khutbah` -/

/-- Opening literal of the prompt f-string. -/
def promptHead : String :=
  "You are an expert Islamic scholar tasked with writing a "

/-- Closing literal of the prompt f-string (everything after the tone). -/
def promptTail : String :=
  ". Create a complete, well-structured Islamic khutbah that includes: 1. An appropriate title 2. Opening with praise to Allah and salutations on Prophet Muhammad (peace be upon him) 3. Introduction to the topic with relevant Quranic verses and Hadith 4. Main body with clear points, explanations, and guidance 5. Practical advice for the audience 6. Conclusion with a summary of key points 7. Closing duas (prayers) The khutbah should be scholarly yet accessible, with proper citations of Quranic verses and authentic Hadith. Format in Markdown with appropriate headings, paragraphs, and emphasis. For Arabic text, include both Arabic script and transliteration where appropriate."

/-- The f-string prompt of `__generate_khutbah`, with the four
interpolations made explicit concatenations. -/
def buildPrompt (topic length tone language : String) : String :=
  promptHead ++ length ++
  " Friday khutbah (sermon) in " ++ language ++ " on the topic: " ++ topic ++
  " with tone: " ++ tone ++ promptTail

/-- `needle` occurs verbatim as a contiguous substring of `hay`. -/
def strContains (needle hay : String) : Prop :=
  ∃ s t, hay.data = s ++ needle.data ++ t

/-! ## Helper lemmas about the cleaning scanners -/

theorem strContains_decomp (x y z hay : String) (h : hay = x ++ y ++ z) :
    strContains y hay :=
  ⟨x.data, z.data, by rw [h]; simp only [String.data_append, List.append_assoc]⟩

theorem fence1Match_none_head (a : Char) (cs : List Char) (ha : ¬ a = btick) :
    fence1Match (a :: cs) = none := by
  match cs with
  | [] => rfl
  | [b] => rfl
  | b :: c :: rest => simp [fence1Match, ha]

theorem matchTagNl_letters (tag : List Char)
    (h : ∀ c ∈ tag, isAsciiLetter c = true) (rest : List Char) :
    matchTagNl (tag ++ '\n' :: rest) = some rest := by
  induction tag with
  | nil => simp [matchTagNl]
  | cons c tag ih =>
    have hc : isAsciiLetter c = true := h c (by simp)
    have hne : ¬ c = '\n' := by
      intro he
      rw [he] at hc
      exact absurd hc (by decide)
    simp only [List.cons_append, matchTagNl, if_neg hne, hc, if_pos rfl]
    exact ih (fun d hd => h d (by simp [hd]))

theorem fence1Match_fence (tag : List Char)
    (h : ∀ c ∈ tag, isAsciiLetter c = true) (rest : List Char) :
    fence1Match (btick :: btick :: btick :: (tag ++ '\n' :: rest)) = some rest := by
  simp [fence1Match, matchTagNl_letters tag h rest]

theorem noBtick_cons (a : Char) (l : List Char) :
    noBtick (a :: l) = true ↔ (¬ a = btick ∧ noBtick l = true) := by
  simp [noBtick]

theorem sub1_append_nobtick (u : List Char) (hu : noBtick u = true)
    (l : List Char) : sub1 (u ++ l) = u ++ sub1 l := by
  induction u with
  | nil => simp
  | cons a u ih =>
    obtain ⟨ha, hu'⟩ := (noBtick_cons a u).mp hu
    rw [List.cons_append, sub1_cons_none a _ (fence1Match_none_head a _ ha),
      ih hu', List.cons_append]

theorem sub1_id_nobtick (u : List Char) (hu : noBtick u = true) :
    sub1 u = u := by
  have h := sub1_append_nobtick u hu []
  rw [List.append_nil, sub1_nil, List.append_nil] at h
  exact h

theorem sub2_cons_head (a : Char) (l : List Char) (ha : ¬ a = btick) :
    sub2 (a :: l) = a :: sub2 l := by
  have hb : ∀ x y : Char, (a = btick && x = btick && y = btick) = false := by
    intro x y
    simp [ha]
  match l with
  | [] => rfl
  | [b] => rfl
  | [b, c] => simp [sub2, hb]
  | b :: c :: d :: rest => simp [sub2, hb]

theorem sub2_cons_of_not_triple (a b c : Char) (rest : List Char)
    (h : ¬ (a = btick ∧ b = btick ∧ c = btick)) :
    sub2 (a :: b :: c :: rest) = a :: sub2 (b :: c :: rest) := by
  have hb : (a = btick && b = btick && c = btick) = false := by
    by_cases h1 : a = btick <;> by_cases h2 : b = btick <;>
      by_cases h3 : c = btick <;> simp_all
  match rest with
  | [] => simp [sub2, hb]
  | d :: rest2 => simp [sub2, hb]

theorem sub2_id_nobtick (u : List Char) (hu : noBtick u = true) :
    sub2 u = u := by
  induction u with
  | nil => rfl
  | cons a u ih =>
    obtain ⟨ha, hu'⟩ := (noBtick_cons a u).mp hu
    rw [sub2_cons_head a u ha, ih hu']

theorem noBtick_append (u v : List Char) :
    noBtick (u ++ v) = (noBtick u && noBtick v) := by
  simp [noBtick, List.all_append]

theorem stripChars_allspace (l : List Char)
    (h : ∀ c ∈ l, isPySpace c = true) : stripChars l = [] := by
  have h1 : l.dropWhile isPySpace = [] := by
    rw [List.dropWhile_eq_nil_iff]
    exact h
  simp [stripChars, h1]

/-! Lemmas for the single leading/trailing fence pair (claim C8):
the interior text may contain isolated backticks, just not three in a
row, so the identity lemmas above (which need a backtick-free interior)
are refined to `hasTriple`-based ones. -/

theorem hasTriple_tail (x : Char) (t : List Char)
    (h : hasTriple (x :: t) = false) : hasTriple t = false := by
  match t with
  | [] => rfl
  | [a] => rfl
  | a :: b :: rest =>
    simp only [hasTriple, Bool.or_eq_false_iff] at h
    exact h.2

/-- No position of `l` starts a completable match of the first fence
regex; on such lists the first `re.sub` pass is the identity. -/
def sub1Fixed : List Char → Bool
  | a :: cs => (fence1Match (a :: cs)).isNone && sub1Fixed cs
  | [] => true

theorem sub1_of_sub1Fixed (l : List Char) (h : sub1Fixed l = true) :
    sub1 l = l := by
  induction l with
  | nil => rfl
  | cons a cs ih =>
    simp only [sub1Fixed, Bool.and_eq_true, Option.isNone_iff_eq_none] at h
    rw [sub1_cons_none a cs h.1, ih h.2]

theorem sub1Fixed_close (t : List Char) (h : hasTriple t = false) :
    sub1Fixed (t ++ [btick, btick, btick]) = true := by
  induction t with
  | nil => decide
  | cons x t ih =>
    have ht := hasTriple_tail x t h
    rw [List.cons_append]
    simp only [sub1Fixed, Bool.and_eq_true, Option.isNone_iff_eq_none]
    refine ⟨?_, ih ht⟩
    match t with
    | [] =>
      by_cases hx : x = btick
      · subst hx; decide
      · exact fence1Match_none_head x _ hx
    | [y] =>
      by_cases hx : x = btick
      · subst hx
        by_cases hy : y = btick
        · subst hy; decide
        · simp [fence1Match, hy]
      · exact fence1Match_none_head x _ hx
    | y :: z :: t'' =>
      simp only [hasTriple, Bool.or_eq_false_iff] at h
      by_cases hx : x = btick
      · subst hx
        have : ¬ (y = btick ∧ z = btick) := by
          intro ⟨h1, h2⟩
          simp [h1, h2] at h
        by_cases hy : y = btick
        · have hz : ¬ z = btick := fun hz => this ⟨hy, hz⟩
          simp [fence1Match, hy, hz]
        · simp [fence1Match, hy]
      · exact fence1Match_none_head x _ hx

theorem sub2_close (t : List Char) (h : hasTriple t = false) :
    sub2 (t ++ [btick, btick, btick]) = t := by
  induction t with
  | nil => decide
  | cons x t ih =>
    have ht := hasTriple_tail x t h
    match t with
    | [] =>
      show sub2 [x, btick, btick, btick] = [x]
      by_cases hx : x = btick
      · subst hx; decide
      · rw [sub2_cons_head x _ hx, show sub2 [btick, btick, btick] = [] from by decide]
    | [y] =>
      show sub2 [x, y, btick, btick, btick] = [x, y]
      by_cases hx : x = btick
      · subst hx
        by_cases hy : y = btick
        · subst hy; decide
        · rw [sub2_cons_of_not_triple _ _ _ _ (by simp [hy]),
            sub2_cons_head y _ hy,
            show sub2 [btick, btick, btick] = [] from by decide]
      · rw [sub2_cons_head x _ hx]
        have h2 := ih ht
        simp only [List.cons_append, List.nil_append] at h2
        rw [h2]
    | y :: z :: t'' =>
      simp only [hasTriple, Bool.or_eq_false_iff] at h
      have hno : ¬ (x = btick ∧ y = btick ∧ z = btick) := by
        intro ⟨h1, h2, h3⟩
        simp [h1, h2, h3] at h
      show sub2 (x :: y :: z :: (t'' ++ [btick, btick, btick])) =
        x :: y :: z :: t''
      rw [sub2_cons_of_not_triple _ _ _ _ hno]
      have h2 := ih ht
      simp only [List.cons_append] at h2
      rw [h2]

/-! Generic shape of a response interleaving plain segments with fence
lines: `fencedTailL [(tag1, seg1), ..., (tagn, segn)]` is
` ```tag1\nseg1```tag2\nseg2... `, and `plainTailL` the same with every
fence line deleted. -/

def fencedTailL : List (List Char × List Char) → List Char
  | [] => []
  | q :: rest =>
    btick :: btick :: btick :: (q.1 ++ '\n' :: (q.2 ++ fencedTailL rest))

def plainTailL : List (List Char × List Char) → List Char
  | [] => []
  | q :: rest => q.2 ++ plainTailL rest

/-- Each fence tag is a run of ASCII letters and each segment is free of
backticks. -/
def fencePairsOK (ps : List (List Char × List Char)) : Prop :=
  ∀ q ∈ ps, (∀ c ∈ q.1, isAsciiLetter c = true) ∧ noBtick q.2 = true

theorem sub1_fencedTail (ps : List (List Char × List Char))
    (hok : fencePairsOK ps) : sub1 (fencedTailL ps) = plainTailL ps := by
  induction ps with
  | nil => rfl
  | cons q rest ih =>
    obtain ⟨htag, hseg⟩ := hok q (List.mem_cons_self q rest)
    show sub1 (btick :: btick :: btick :: (q.1 ++ '\n' :: (q.2 ++ fencedTailL rest)))
      = q.2 ++ plainTailL rest
    rw [sub1_match _ _ (fence1Match_fence q.1 htag _),
      sub1_append_nobtick q.2 hseg,
      ih (fun r hr => hok r (List.mem_cons_of_mem _ hr))]

theorem noBtick_plainTailL (ps : List (List Char × List Char))
    (hok : fencePairsOK ps) : noBtick (plainTailL ps) = true := by
  induction ps with
  | nil => rfl
  | cons q rest ih =>
    show noBtick (q.2 ++ plainTailL rest) = true
    rw [noBtick_append]
    exact Bool.and_eq_true _ _ |>.mpr
      ⟨(hok q (List.mem_cons_self q rest)).2,
       ih (fun r hr => hok r (List.mem_cons_of_mem _ hr))⟩

theorem mem_plainTailL (c : Char) (ps : List (List Char × List Char))
    (hc : c ∈ plainTailL ps) : ∃ q ∈ ps, c ∈ q.2 := by
  induction ps with
  | nil => simp [plainTailL] at hc
  | cons q rest ih =>
    rw [show plainTailL (q :: rest) = q.2 ++ plainTailL rest from rfl,
      List.mem_append] at hc
    cases hc with
    | inl h => exact ⟨q, List.mem_cons_self q rest, h⟩
    | inr h =>
      obtain ⟨r, hr, hcr⟩ := ih h
      exact ⟨r, List.mem_cons_of_mem _ hr, hcr⟩

theorem pySpace_ne_btick (c : Char) (h : isPySpace c = true) : ¬ c = btick := by
  intro he
  rw [he] at h
  exact absurd h (by decide)

theorem noBtick_of_allspace (l : List Char)
    (h : ∀ c ∈ l, isPySpace c = true) : noBtick l = true := by
  rw [noBtick, List.all_eq_true]
  intro c hc
  simp [pySpace_ne_btick c (h c hc)]

/-! ## Claims -/

/-- Claim C1, counterexample: for the cleaned text `"# Hello"`, which
starts with a top-level heading, the renderer does *not* succeed — it
returns the no-result signal, because `pdf.meta["title"] = title` reads
a variable that is only assigned in the synthesized-title branch. -/
theorem C1_counterexample :
    startsH1 ("# Hello".data) = true ∧
    khutbah_to_pdf "# Hello" "Topic" "English" "/tmp" = none :=
  ⟨by decide, by decide⟩

/-- Claim C1 (amended): for every cleaned text that already starts with
a top-level heading line `"# "`, the renderer fails and returns the
no-result signal, because the metadata title it would stamp is unset on
this path; no output document is produced (so in particular the heading
is neither duplicated nor dropped in any produced output). -/
theorem C1_amended (md topic language tempDir : String)
    (h : startsH1 md.data = true) :
    khutbah_to_pdf md topic language tempDir = none := by
  simp [khutbah_to_pdf, h]

/-- Witness for `C1_amended` at a concrete input. -/
theorem C1_witness : khutbah_to_pdf "# W" "T" "L" "/d" = none :=
  C1_amended "# W" "T" "L" "/d" (by decide)

/-- Claim C2 (code bug): on a cleaned text with no top-level heading the
source synthesizes the title only *after* `pdf.add_section` has already
registered the original text, and assigns the heading-prefixed string to
a local that nothing reads; so the content passed to the rendered
document does not begin with a top-level heading, and the synthesized
title literal is `"Khutbah on {topic}"`, not `"Sermon on {topic}"`.
This theorem evaluates the model at the failing input
(`markdown_text = "Hello world"`, `topic = "Patience"`). -/
theorem C2_section_misses_heading :
    startsH1 ("Hello world".data) = false ∧
    (khutbah_to_pdf "Hello world" "Patience" "English" "/tmp").map
      (fun r => (r.2.sections, r.2.title)) =
      some (["Hello world"], "Khutbah on Patience") ∧
    (["Hello world"] : List String) ≠ ["# Sermon on Patience\n\nHello world"] :=
  ⟨by decide, by decide, by decide⟩

/-- Claim C3, counterexample: a successful render with topic `"X"` has
metadata subject `"Islamic Khutbah on X"`, not `"Sermon on X"`. -/
theorem C3_counterexample :
    (khutbah_to_pdf "body" "X" "English" "/tmp").map (fun r => r.2.subject) =
      some "Islamic Khutbah on X" ∧
    ("Islamic Khutbah on X" : String) ≠ "Sermon on X" :=
  ⟨by decide, by decide⟩

/-- Claim C3 (amended): for every successful render with topic `t`, the
document metadata has subject `"Islamic Khutbah on {t}"` and the fixed
author string `"Ikmal Said"` and creator string `"KhutbahMaker"`. -/
theorem C3_amended (md topic language tempDir p : String) (doc : PdfDoc)
    (h : khutbah_to_pdf md topic language tempDir = some (p, doc)) :
    doc.subject = "Islamic Khutbah on " ++ topic ∧
    doc.author = "Ikmal Said" ∧ doc.creator = "KhutbahMaker" := by
  by_cases hs : startsH1 md.data
  · simp [khutbah_to_pdf, hs] at h
  · simp only [khutbah_to_pdf, if_neg hs, Option.some.injEq, Prod.mk.injEq] at h
    obtain ⟨-, h2⟩ := h
    subst h2
    exact ⟨rfl, rfl, rfl⟩

/-- Witness for `C3_amended` at a concrete input. -/
theorem C3_witness :
    (⟨3, ["body"], "Khutbah on X", "Islamic Khutbah on X",
      "Ikmal Said", "KhutbahMaker"⟩ : PdfDoc).subject =
      "Islamic Khutbah on " ++ "X" ∧
    (⟨3, ["body"], "Khutbah on X", "Islamic Khutbah on X",
      "Ikmal Said", "KhutbahMaker"⟩ : PdfDoc).author = "Ikmal Said" ∧
    (⟨3, ["body"], "Khutbah on X", "Islamic Khutbah on X",
      "Ikmal Said", "KhutbahMaker"⟩ : PdfDoc).creator = "KhutbahMaker" :=
  C3_amended "body" "X" "English" "/tmp" "/tmp/X_khutbah_english.pdf"
    ⟨3, ["body"], "Khutbah on X", "Islamic Khutbah on X",
      "Ikmal Said", "KhutbahMaker"⟩ (by decide)

/-- Claim C4: for every input, the public generate operation never
propagates an exception (stage exceptions, the `Except.error` cases, are
absorbed at the orchestration boundary), and the result pair is always
either both present or both absent. -/
theorem C4_result_pair_shape (topic : String)
    (gen : Except String (Option String))
    (ren : String → Except String (Option String)) :
    ((generate_khutbah topic gen ren).pdfFile = none ∧
      (generate_khutbah topic gen ren).text = none) ∨
    (∃ p t, (generate_khutbah topic gen ren).pdfFile = some p ∧
      (generate_khutbah topic gen ren).text = some t) := by
  simp only [generate_khutbah]
  split
  · exact Or.inl ⟨rfl, rfl⟩
  · split
    · exact Or.inl ⟨rfl, rfl⟩
    · exact Or.inl ⟨rfl, rfl⟩
    · split
      · exact Or.inl ⟨rfl, rfl⟩
      · split
        · exact Or.inl ⟨rfl, rfl⟩
        · exact Or.inl ⟨rfl, rfl⟩
        · split
          · exact Or.inl ⟨rfl, rfl⟩
          · exact Or.inr ⟨_, _, rfl, rfl⟩

/-- Claim C5: for the empty topic, `generate_khutbah` returns
`(none, none)` with no task id allocated and no generator call, whatever
the collaborators would do. -/
theorem C5_empty_topic (gen : Except String (Option String))
    (ren : String → Except String (Option String)) :
    generate_khutbah "" gen ren = ⟨none, none, false, false, false⟩ := rfl

/-- Claim C6: whenever the generator stage reports failure (returns
Python `None`), the renderer is never invoked and the result is
`(none, none)`. -/
theorem C6_generator_failure_skips_renderer (topic : String)
    (ren : String → Except String (Option String)) :
    (generate_khutbah topic (Except.ok none) ren).pdfFile = none ∧
    (generate_khutbah topic (Except.ok none) ren).text = none ∧
    (generate_khutbah topic (Except.ok none) ren).rendererCalled = false := by
  by_cases h : topic = "" <;> simp [generate_khutbah, h]

/-- Claim C7, counterexample: with topic `"a"` and language `"English"`
the produced path is `/tmp/a_khutbah_english.pdf`, while the claim's
formula `{temp dir}/{sanitized topic}_khutbah_{language}.pdf` (language
verbatim, as `claimedPdfPath` spells it) gives
`/tmp/a_khutbah_English.pdf`. -/
theorem C7_counterexample :
    (khutbah_to_pdf "body" "a" "English" "/tmp").map Prod.fst =
      some "/tmp/a_khutbah_english.pdf" ∧
    claimedPdfPath "/tmp" "a" "English" = "/tmp/a_khutbah_English.pdf" ∧
    ("/tmp/a_khutbah_english.pdf" : String) ≠ "/tmp/a_khutbah_English.pdf" :=
  ⟨by decide, by decide, by decide⟩

/-- Claim C7 (amended): the returned artifact path is
`{temp dir}/{sanitized topic}_khutbah_{language lowercased, spaces
replaced by underscores}.pdf`, where sanitization replaces every
character of the topic outside word-characters and hyphens with an
underscore; consequently the sanitized topic part consists only of
word-characters and hyphens (underscores being word-characters). -/
theorem C7_amended (md topic language tempDir p : String) (doc : PdfDoc)
    (h : khutbah_to_pdf md topic language tempDir = some (p, doc)) :
    p = tempDir ++ "/" ++ sanitize topic ++ "_khutbah_" ++
      normLang language ++ ".pdf" ∧
    ∀ c ∈ (sanitize topic).data, isWordChar c = true ∨ c = '-' := by
  constructor
  · by_cases hs : startsH1 md.data
    · simp [khutbah_to_pdf, hs] at h
    · simp only [khutbah_to_pdf, if_neg hs, Option.some.injEq, Prod.mk.injEq] at h
      rw [← h.1]
      simp only [String.append_assoc]
  · intro c hc
    have hdata : (sanitize topic).data =
        topic.data.map (fun c => if isWordChar c || c = '-' then c else '_') := rfl
    rw [hdata, List.mem_map] at hc
    obtain ⟨a, -, ha⟩ := hc
    by_cases hw : (isWordChar a || a = '-') = true
    · rw [if_pos hw] at ha
      subst ha
      simpa using hw
    · rw [if_neg hw] at ha
      subst ha
      exact Or.inl (by decide)

/-- Witness for `C7_amended` at a concrete input. -/
theorem C7_witness :
    ("/tmp/a_khutbah_english.pdf" : String) =
      "/tmp" ++ "/" ++ sanitize "a" ++ "_khutbah_" ++ normLang "English" ++ ".pdf" ∧
    ∀ c ∈ (sanitize "a").data, isWordChar c = true ∨ c = '-' :=
  C7_amended "body" "a" "English" "/tmp" "/tmp/a_khutbah_english.pdf"
    ⟨3, ["body"], "Khutbah on a", "Islamic Khutbah on a",
      "Ikmal Said", "KhutbahMaker"⟩ (by decide)

/-- Claim C8, counterexample: for the interior text `"a```b"` (which
itself contains a fence marker) cleaning the fenced response yields
`"ab"`, not the trimmed interior text `"a```b"` — the cleaning passes
delete fence markers inside the interior too. -/
theorem C8_counterexample :
    clean_markdown ("```" ++ "lang" ++ "\n" ++ "a```b" ++ "```") = "ab" ∧
    pyStrip "a```b" = "a```b" ∧ ("ab" : String) ≠ "a```b" :=
  ⟨by decide, by decide, by decide⟩

/-- Claim C8 (amended): for every interior text `t` that contains no
triple-backtick sequence, cleaning a response that wraps `t` in
triple-backtick fences (with or without an ASCII-letter language tag on
the opening fence) yields exactly the trimmed interior:
`clean("```tag\n" ++ t ++ "```") = strip(t)`. -/
theorem C8_amended (tag t : String)
    (htag : ∀ c ∈ tag.data, isAsciiLetter c = true)
    (ht : hasTriple t.data = false) :
    clean_markdown ("```" ++ tag ++ "\n" ++ t ++ "```") = pyStrip t := by
  have hdata : ("```" ++ tag ++ "\n" ++ t ++ "```").data
      = btick :: btick :: btick ::
        (tag.data ++ '\n' :: (t.data ++ [btick, btick, btick])) := by
    simp only [String.data_append, List.append_assoc]
    rfl
  simp only [clean_markdown, cleanList, hdata]
  rw [sub1_match _ _ (fence1Match_fence tag.data htag _),
    sub1_of_sub1Fixed _ (sub1Fixed_close t.data ht),
    sub2_close t.data ht]
  rfl

/-- Witness for `C8_amended` at a concrete input. -/
theorem C8_witness :
    clean_markdown ("```" ++ "md" ++ "\n" ++ " hello " ++ "```") =
      pyStrip " hello " :=
  C8_amended "md" " hello " (by decide) (by decide)

/-- Claim C9: for all non-empty topics and every choice of length, tone
and language, the prompt built by `buildPrompt` (a pure Lean function,
hence deterministic and side-effect-free like the source f-string)
contains the topic, length, tone and language verbatim as substrings. -/
theorem C9_prompt_contains (topic length tone language : String)
    (_h : ¬ topic = "") :
    strContains topic (buildPrompt topic length tone language) ∧
    strContains length (buildPrompt topic length tone language) ∧
    strContains tone (buildPrompt topic length tone language) ∧
    strContains language (buildPrompt topic length tone language) := by
  refine ⟨?_, ?_, ?_, ?_⟩
  · exact strContains_decomp
      (promptHead ++ length ++ " Friday khutbah (sermon) in " ++ language ++
        " on the topic: ")
      topic (" with tone: " ++ tone ++ promptTail) _
      (by simp only [buildPrompt, String.append_assoc])
  · exact strContains_decomp promptHead length
      (" Friday khutbah (sermon) in " ++ language ++ " on the topic: " ++
        topic ++ " with tone: " ++ tone ++ promptTail) _
      (by simp only [buildPrompt, String.append_assoc])
  · exact strContains_decomp
      (promptHead ++ length ++ " Friday khutbah (sermon) in " ++ language ++
        " on the topic: " ++ topic ++ " with tone: ")
      tone promptTail _
      (by simp only [buildPrompt, String.append_assoc])
  · exact strContains_decomp
      (promptHead ++ length ++ " Friday khutbah (sermon) in ") language
      (" on the topic: " ++ topic ++ " with tone: " ++ tone ++ promptTail) _
      (by simp only [buildPrompt, String.append_assoc])

/-- Witness for `C9_prompt_contains` at a concrete input. -/
theorem C9_witness :
    strContains "Patience"
      (buildPrompt "Patience" "Short" "Inspirational" "English") ∧
    strContains "Short"
      (buildPrompt "Patience" "Short" "Inspirational" "English") ∧
    strContains "Inspirational"
      (buildPrompt "Patience" "Short" "Inspirational" "English") ∧
    strContains "English"
      (buildPrompt "Patience" "Short" "Inspirational" "English") :=
  C9_prompt_contains "Patience" "Short" "Inspirational" "English" (by decide)

/-- Claim C10: (1) cleaning deletes every triple-backtick fence line
occurring anywhere in the response — for any interleaving of
backtick-free segments with fence lines, the result is the stripped
concatenation of the segments alone; (2) a response consisting only of
fence lines and whitespace cleans to the empty string; (3) a generator
stage returning the empty cleaned string is treated by the orchestration
as a failure: `(none, none)` is returned and the renderer is never
invoked. -/
theorem C10_fence_lines_removed :
    (∀ (s : List Char) (ps : List (List Char × List Char)),
      noBtick s = true → fencePairsOK ps →
      cleanList (s ++ fencedTailL ps) = stripChars (s ++ plainTailL ps)) ∧
    (∀ (s : List Char) (ps : List (List Char × List Char)),
      (∀ c ∈ s, isPySpace c = true) →
      (∀ q ∈ ps, (∀ c ∈ q.1, isAsciiLetter c = true) ∧
        (∀ c ∈ q.2, isPySpace c = true)) →
      cleanList (s ++ fencedTailL ps) = []) ∧
    (∀ (topic : String) (ren : String → Except String (Option String)),
      (generate_khutbah topic (Except.ok (some "")) ren).pdfFile = none ∧
      (generate_khutbah topic (Except.ok (some "")) ren).text = none ∧
      (generate_khutbah topic (Except.ok (some "")) ren).rendererCalled = false) := by
  have part1 : ∀ (s : List Char) (ps : List (List Char × List Char)),
      noBtick s = true → fencePairsOK ps →
      cleanList (s ++ fencedTailL ps) = stripChars (s ++ plainTailL ps) := by
    intro s ps hs hok
    have hb : noBtick (s ++ plainTailL ps) = true := by
      rw [noBtick_append, Bool.and_eq_true]
      exact ⟨hs, noBtick_plainTailL ps hok⟩
    unfold cleanList
    rw [sub1_append_nobtick s hs, sub1_fencedTail ps hok, sub2_id_nobtick _ hb]
  refine ⟨part1, ?_, ?_⟩
  · intro s ps hs hok
    have hs' : noBtick s = true := noBtick_of_allspace s hs
    have hok' : fencePairsOK ps := fun q hq =>
      ⟨(hok q hq).1, noBtick_of_allspace _ (hok q hq).2⟩
    rw [part1 s ps hs' hok']
    apply stripChars_allspace
    intro c hc
    rcases List.mem_append.mp hc with h | h
    · exact hs c h
    · obtain ⟨q, hq, hcq⟩ := mem_plainTailL c ps h
      exact (hok q hq).2 c hcq
  · intro topic ren
    by_cases h : topic = "" <;> simp [generate_khutbah, h]

/-- Witness for `C10_fence_lines_removed` at concrete inputs: a response
with two interior fence lines, a response of fences and whitespace only,
and an orchestration run whose generator yields the empty string. -/
theorem C10_witness :
    cleanList ("intro\n".data ++
        fencedTailL [("py".data, "code\n".data), ([], "tail".data)]) =
      stripChars ("intro\n".data ++
        plainTailL [("py".data, "code\n".data), ([], "tail".data)]) ∧
    cleanList (" ".data ++ fencedTailL [([], " ".data)]) = [] ∧
    ((generate_khutbah "Topic" (Except.ok (some ""))
        (fun _ => Except.ok none)).pdfFile = none ∧
      (generate_khutbah "Topic" (Except.ok (some ""))
        (fun _ => Except.ok none)).text = none ∧
      (generate_khutbah "Topic" (Except.ok (some ""))
        (fun _ => Except.ok none)).rendererCalled = false) :=
  ⟨C10_fence_lines_removed.1 _ _ (by decide) (by unfold fencePairsOK; decide),
   C10_fence_lines_removed.2.1 _ _ (by decide) (by decide),
   C10_fence_lines_removed.2.2 "Topic" (fun _ => Except.ok none)⟩

end KhutbahMaker
